import Mathlib

/-!
# Verification of the griddb-client row codec and request executor

This file is a shallow embedding of the two core components of the
`junwatu/griddb-client` repository:

* the row/type marshalling layer (`src/utils/transformers.ts`):
  `transformRowToArray`, `transformArrayToRow`, `convertToGridDBType`,
  `toGridDBValue`, `fromGridDBValue`;
* the request execution layer with retry/backoff and error classification
  (`src/core/client.ts`): `request` and `containerExists`.

JavaScript runtime values are modelled by the inductive type `JSVal`.
Numbers are modelled as rationals plus a separate NaN value; `Date`
objects are modelled as either an invalid date or a broken-down UTC
calendar instant (`DateComps`), which is the information content of a
date's time value.  Built-in runtime functions used by the source
(`Date.prototype.toISOString`, `Date` parsing, `String(...)`,
`parseInt`, `parseFloat`, `Buffer.prototype.toString('base64')`) are
given executable models; each model notes the fragment of runtime
behaviour it captures.  Code that can throw is modelled in `Except`.
-/

/-- Broken-down UTC calendar instant carried by a valid JavaScript `Date`:
year, month (1-12), day of month, hour, minute, second, millisecond. -/
structure DateComps where
  y : Int
  m : Nat
  d : Nat
  hh : Nat
  mi : Nat
  ss : Nat
  ms : Nat
deriving DecidableEq, Repr

/-- Proleptic Gregorian leap-year predicate (divisibility is independent of
the integer division convention, `emod` is used for definiteness). -/
def isLeapYear (y : Int) : Bool :=
  (y.emod 4 == 0 && y.emod 100 != 0) || y.emod 400 == 0

/-- Number of days in a month of a given year. -/
def daysInMonthJs (y : Int) (m : Nat) : Nat :=
  if m = 2 then (if isLeapYear y then 29 else 28)
  else if m = 4 ∨ m = 6 ∨ m = 9 ∨ m = 11 then 30 else 31

/-- Validity of broken-down components as a calendar instant.  The year
bound models the ±8.64e15 ms `TimeClip` range of JavaScript dates at year
granularity. -/
def validComps (c : DateComps) : Bool :=
  1 ≤ c.m && c.m ≤ 12 && 1 ≤ c.d && c.d ≤ daysInMonthJs c.y c.m &&
    c.hh ≤ 23 && c.mi ≤ 59 && c.ss ≤ 59 && c.ms ≤ 999 &&
    -271821 ≤ c.y && c.y ≤ 275760

/-- The character for a decimal digit. -/
def digitChar (n : Nat) : Char := Char.ofNat (48 + n)

/-- Fixed-width decimal rendering (most significant digit first). -/
def padDigits : Nat → Nat → List Char
  | 0, _ => []
  | w + 1, n => digitChar (n / 10 ^ w) :: padDigits w (n % 10 ^ w)

/-- Read exactly `w` decimal digits, extending the accumulator. -/
def readDigits : Nat → Nat → List Char → Option (Nat × List Char)
  | 0, acc, cs => some (acc, cs)
  | w + 1, acc, c :: cs =>
      if c.isDigit then readDigits w (acc * 10 + (c.toNat - 48)) cs else none
  | _ + 1, _, [] => none

/-- Year field of `Date.prototype.toISOString`: four digits for years
0-9999, otherwise the expanded six-digit form with an explicit sign. -/
def yearChars (y : Int) : List Char :=
  if 0 ≤ y ∧ y ≤ 9999 then padDigits 4 y.toNat
  else if y < 0 then '-' :: padDigits 6 (-y).toNat
  else '+' :: padDigits 6 y.toNat

/-- Model of `Date.prototype.toISOString` (on a valid date):
`YYYY-MM-DDTHH:mm:ss.sssZ`, with the expanded year form when needed. -/
def isoChars (c : DateComps) : List Char :=
  yearChars c.y ++
    '-' :: padDigits 2 c.m ++ '-' :: padDigits 2 c.d ++
    'T' :: padDigits 2 c.hh ++ ':' :: padDigits 2 c.mi ++
    ':' :: padDigits 2 c.ss ++ '.' :: padDigits 3 c.ms ++ ['Z']

def isoString (c : DateComps) : String := (isoChars c).asString

/-- Consume one expected character. -/
def expectChar (c : Char) : List Char → Option (List Char)
  | x :: rest => if x = c then some rest else none
  | [] => none

/-- Parse the remainder of an ISO string after the year field, and
validate the component ranges (out-of-range fields give an invalid
date, as in the JavaScript ISO parser). -/
def parseIsoTail (y : Int) (cs0 : List Char) : Option DateComps := do
  let cs1 ← expectChar '-' cs0
  let (m, cs2) ← readDigits 2 0 cs1
  let cs3 ← expectChar '-' cs2
  let (d, cs4) ← readDigits 2 0 cs3
  let cs5 ← expectChar 'T' cs4
  let (hh, cs6) ← readDigits 2 0 cs5
  let cs7 ← expectChar ':' cs6
  let (mi, cs8) ← readDigits 2 0 cs7
  let cs9 ← expectChar ':' cs8
  let (ss, cs10) ← readDigits 2 0 cs9
  let cs11 ← expectChar '.' cs10
  let (ms, cs12) ← readDigits 3 0 cs11
  let cs13 ← expectChar 'Z' cs12
  if cs13 = [] then
    let c : DateComps := ⟨y, m, d, hh, mi, ss, ms⟩
    if validComps c then some c else none
  else none

/-- Model of JavaScript date-string parsing.  It accepts the canonical
UTC ISO form produced by `toISOString` (both the four-digit and the
expanded six-digit year).  Other implementation-defined date formats
are not modelled and yield an invalid date. -/
def parseIsoChars (cs : List Char) : Option DateComps :=
  match cs with
  | [] => none
  | x :: rest =>
    if x = '+' then
      (readDigits 6 0 rest).bind fun p => parseIsoTail (p.1 : Int) p.2
    else if x = '-' then
      (readDigits 6 0 rest).bind fun p =>
        if p.1 = 0 then none else parseIsoTail (-(p.1 : Int)) p.2
    else
      (readDigits 4 0 (x :: rest)).bind fun p => parseIsoTail (p.1 : Int) p.2

def parseIsoString (s : String) : Option DateComps := parseIsoChars s.data

/-- Civil-from-days conversion (Gregorian), used to model construction of
a `Date` from a numeric time value.  Executable model only; no theorem
relies on its arithmetic. -/
def compsOfMillis (t : Int) : DateComps :=
  let days := Int.fdiv t 86400000
  let ms := (Int.fmod t 86400000).toNat
  let z := days + 719468
  let era := Int.fdiv z 146097
  let doe := (Int.fmod z 146097).toNat
  let yoe := (doe - doe / 1460 + doe / 36524 - doe / 146096) / 365
  let doy := doe - (365 * yoe + yoe / 4 - yoe / 100)
  let mp := (5 * doy + 2) / 153
  let d := doy - (153 * mp + 2) / 5 + 1
  let m := if mp < 10 then mp + 3 else mp - 9
  let y := (yoe : Int) + era * 400 + (if m ≤ 2 then 1 else 0)
  ⟨y, m, d, ms / 3600000, ms % 3600000 / 60000, ms % 60000 / 1000, ms % 1000⟩

/-- JavaScript runtime values, as used by the codec: `null`, `undefined`,
NaN, booleans, (finite) numbers as rationals, strings, `Date` objects
(invalid or a valid instant), `Buffer`s and `Blob`s as byte lists, plain
objects as key-ordered association lists, and arrays. -/
inductive JSVal where
  | vnull
  | vundefined
  | vnan
  | vbool (b : Bool)
  | vnum (q : ℚ)
  | vstr (s : String)
  | vdate (t : Option DateComps)
  | vbuffer (bytes : List Nat)
  | vblob (bytes : List Nat)
  | vobj (fields : List (String × JSVal))
  | varr (elems : List JSVal)

/-- JavaScript truthiness: `false`, `0`, NaN, the empty string, `null`
and `undefined` are falsy; every object (including an invalid `Date`)
is truthy. -/
def jsTruthy : JSVal → Bool
  | .vnull => false
  | .vundefined => false
  | .vnan => false
  | .vbool b => b
  | .vnum q => q != 0
  | .vstr s => s != ""
  | .vdate _ => true
  | .vbuffer _ => true
  | .vblob _ => true
  | .vobj _ => true
  | .varr _ => true

/-- Fractional decimal digits of a rational in `[0, 1)`, up to `fuel`
digits. -/
def fracDigitChars : Nat → ℚ → List Char
  | 0, _ => []
  | fuel + 1, q =>
    if q = 0 then []
    else
      let q10 := q * 10
      let dgt := q10.floor
      digitChar dgt.toNat :: fracDigitChars fuel (q10 - (dgt : ℚ))

/-- Model of JavaScript number-to-string conversion on the rational
number model: sign, integer part, and up to 17 fractional digits.
(The exact shortest-double representation of the runtime is not
modelled; integers print exactly as in JavaScript.) -/
def jsNumToString (q : ℚ) : String :=
  let sgn := if q < 0 then "-" else ""
  let a := if q < 0 then -q else q
  let ip := a.floor.toNat
  let fp := a - (a.floor : ℚ)
  if fp = 0 then sgn ++ toString ip
  else sgn ++ toString ip ++ "." ++ (fracDigitChars 17 fp).asString

/-- Model of JavaScript `String(value)`.  Exact on `null`, `undefined`,
NaN, booleans, integers and strings; a valid `Date` is rendered as its
ISO form (the runtime uses a locale-dependent human format); buffers are
decoded byte-per-character; object and array rendering is approximated
by fixed tags (no theorem depends on those branches). -/
def jsString : JSVal → String
  | .vnull => "null"
  | .vundefined => "undefined"
  | .vnan => "NaN"
  | .vbool b => if b then "true" else "false"
  | .vnum q => jsNumToString q
  | .vstr s => s
  | .vdate none => "Invalid Date"
  | .vdate (some c) => isoString c
  | .vbuffer bs => (bs.map fun b => Char.ofNat b).asString
  | .vblob _ => "[object Blob]"
  | .vobj _ => "[object Object]"
  | .varr _ => "[object Array]"

def skipWs (cs : List Char) : List Char :=
  cs.dropWhile fun c => c == ' ' || c == '\t' || c == '\n' || c == '\r'

def digitsToNat (ds : List Char) : Nat :=
  ds.foldl (fun a c => a * 10 + (c.toNat - 48)) 0

/-- Model of `parseInt(s, 10)`: skip whitespace, optional sign, then the
longest prefix of decimal digits; NaN when there is none. -/
def jsParseInt (s : String) : JSVal :=
  let cs := skipWs s.data
  match cs with
  | '-' :: rest =>
    let ds := rest.takeWhile Char.isDigit
    if ds = [] then .vnan else .vnum (-(digitsToNat ds : ℚ))
  | '+' :: rest =>
    let ds := rest.takeWhile Char.isDigit
    if ds = [] then .vnan else .vnum (digitsToNat ds)
  | _ =>
    let ds := cs.takeWhile Char.isDigit
    if ds = [] then .vnan else .vnum (digitsToNat ds)

/-- Model of `parseFloat(s)`: skip whitespace, optional sign, decimal
digits with an optional fractional part; NaN when there is no digit.
(Exponent notation and `Infinity` are not modelled.) -/
def jsParseFloat (s : String) : JSVal :=
  let cs := skipWs s.data
  let core := fun (neg : Bool) (cs1 : List Char) =>
    let ip := cs1.takeWhile Char.isDigit
    let r1 := cs1.dropWhile Char.isDigit
    let fp := match r1 with
      | '.' :: r2 => r2.takeWhile Char.isDigit
      | _ => []
    if ip = [] ∧ fp = [] then JSVal.vnan
    else
      let mag : ℚ := (digitsToNat ip : ℚ) + (digitsToNat fp : ℚ) / (10 ^ fp.length : ℚ)
      JSVal.vnum (if neg then -mag else mag)
  match cs with
  | '-' :: rest => core true rest
  | '+' :: rest => core false rest
  | _ => core false cs

def base64Alphabet : List Char :=
  "ABCDEFGHIJKLMNOPQRSTUVWXYZabcdefghijklmnopqrstuvwxyz0123456789+/".data

def b64c (n : Nat) : Char := base64Alphabet.getD n '='

/-- Standard base64 encoding of a byte list (with `=` padding). -/
def base64Encode : List Nat → List Char
  | [] => []
  | [a] => [b64c (a / 4), b64c (a % 4 * 16), '=', '=']
  | [a, b] => [b64c (a / 4), b64c (a % 4 * 16 + b / 16), b64c (b % 16 * 4), '=']
  | a :: b :: c :: rest =>
    [b64c (a / 4), b64c (a % 4 * 16 + b / 16), b64c (b % 16 * 4 + c / 64), b64c (c % 64)]
      ++ base64Encode rest

def bufferToBase64 (bs : List Nat) : String := (base64Encode bs).asString

/-- Truncation toward zero of a rational (`ToIntegerOrInfinity`). -/
def ratTrunc (q : ℚ) : Int := if 0 ≤ q then q.floor else q.ceil

/-- Model of `new Date(value)`.  A `Date` argument copies its time value;
`null` and booleans convert through their numeric value; numbers are
clipped to the ±8.64e15 ms range and truncated; strings go through the
ISO parser model; NaN and `undefined` give an invalid date.  Buffers,
blobs, plain objects and arrays (whose `ToPrimitive` coercion is not
modelled) are treated as invalid. -/
def dateFrom : JSVal → Option DateComps
  | .vdate t => t
  | .vnull => some (compsOfMillis 0)
  | .vundefined => none
  | .vnan => none
  | .vbool b => some (compsOfMillis (if b then 1 else 0))
  | .vnum q =>
    if q.num.natAbs ≤ 8640000000000000 * q.den then some (compsOfMillis (ratTrunc q))
    else none
  | .vstr s => parseIsoString s
  | .vbuffer _ => none
  | .vblob _ => none
  | .vobj _ => none
  | .varr _ => none

/-! ## Row codec (src/utils/transformers.ts) -/

/-- Column descriptor: name and declared scalar type. -/
structure GridDBColumn where
  name : String
  type : String
deriving DecidableEq, Repr

/-- Exception model for the codec: `Date.prototype.toISOString` throws a
`RangeError` on an invalid date; nothing else in the embedded code
throws. -/
inductive JsErr where
  | rangeError (msg : String)
deriving DecidableEq, Repr

/-- `toGridDBValue` (transformers.ts:154): `null`/`undefined` pass to
null, a `Date` becomes its ISO text (null when invalid), a `Buffer`
becomes base64 text, a `Blob` passes through, everything else passes
through unchanged. -/
def toGridDBValue (value : JSVal) : JSVal :=
  match value with
  | .vnull => .vnull
  | .vundefined => .vnull
  | .vdate none => .vnull
  | .vdate (some c) => .vstr (isoString c)
  | .vbuffer bs => .vstr (bufferToBase64 bs)
  | .vblob bs => .vblob bs
  | v => v

/-- ASCII uppercase of one character. -/
def charUpper (c : Char) : Char :=
  if 'a' ≤ c ∧ c ≤ 'z' then Char.ofNat (c.toNat - 32) else c

/-- Model of `String.prototype.toUpperCase` (ASCII range, which covers
the type names the codec compares against). -/
def jsToUpper (s : String) : String := (s.data.map charUpper).asString

/-- The `switch (columnType.toUpperCase())` body of `convertToGridDBType`
(transformers.ts:116), taking the already-uppercased type name.
The `TIMESTAMP` case mirrors the source exactly: a `Date` instance is
checked for validity (invalid gives null), but any other input is
converted with `new Date(value).toISOString()`, which throws a
`RangeError` when the constructed date is invalid. -/
def convertByType (value : JSVal) (u : String) : Except JsErr JSVal :=
  match u with
    | "INTEGER" =>
      match value with
      | .vnum q => .ok (.vnum (q.floor : ℚ))
      | .vnan => .ok .vnan
      | _ => .ok (jsParseInt (jsString value))
    | "LONG" =>
      match value with
      | .vnum q => .ok (.vnum (q.floor : ℚ))
      | .vnan => .ok .vnan
      | _ => .ok (jsParseInt (jsString value))
    | "DOUBLE" =>
      match value with
      | .vnum q => .ok (.vnum q)
      | .vnan => .ok .vnan
      | _ => .ok (jsParseFloat (jsString value))
    | "FLOAT" =>
      match value with
      | .vnum q => .ok (.vnum q)
      | .vnan => .ok .vnan
      | _ => .ok (jsParseFloat (jsString value))
    | "STRING" => .ok (.vstr (jsString value))
    | "BOOL" => .ok (.vbool (jsTruthy value))
    | "BOOLEAN" => .ok (.vbool (jsTruthy value))
    | "TIMESTAMP" =>
      match value with
      | .vdate none => .ok .vnull
      | .vdate (some c) => .ok (.vstr (isoString c))
      | v =>
        match dateFrom v with
        | none => .error (.rangeError "Invalid time value")
        | some c => .ok (.vstr (isoString c))
    | "BLOB" =>
      match value with
      | .vbuffer bs => .ok (.vstr (bufferToBase64 bs))
      | v => .ok v
    | _ => .ok (toGridDBValue value)

/-- `convertToGridDBType` (transformers.ts:111): null and undefined
coerce to null for every declared type; otherwise dispatch on the
uppercased type name. -/
def convertToGridDBType (value : JSVal) (columnType : String) : Except JsErr JSVal :=
  match value with
  | .vnull => .ok .vnull
  | .vundefined => .ok .vnull
  | _ => convertByType value (jsToUpper columnType)

/-- Property lookup `row[name]` on the object model: the first binding
of the key, `undefined` when absent. -/
def objGet (fields : List (String × JSVal)) (name : String) : JSVal :=
  match fields.lookup name with
  | some v => v
  | none => .vundefined

/-- `row[column.name]` for an arbitrary row value: property lookup on
plain objects, `undefined` on other values. -/
def rowIndex (row : JSVal) (name : String) : JSVal :=
  match row with
  | .vobj fields => objGet fields name
  | _ => .vundefined

/-- `Object.values(row)`: the values of a plain object in key insertion
order.  (On non-object inputs the model returns `[]`; no theorem touches
that branch.) -/
def objValues (row : JSVal) : List JSVal :=
  match row with
  | .vobj fields => fields.map fun p => p.2
  | _ => []

/-- The warning text of the schema-less encode path (transformers.ts:35). -/
def noSchemaWarning : String :=
  "GridDB Client: No schema provided for transformRowToArray. Column order may be incorrect."

/-- The schema-less fallback of `transformRowToArray`: warn, then map the
generic coercion over the row's values in key insertion order. -/
def rowFallback (row : JSVal) : Except JsErr (List JSVal × List String) :=
  .ok ((objValues row).map toGridDBValue, [noSchemaWarning])

/-- `transformRowToArray` (transformers.ts:16), returning the produced
wire row together with the warning-level diagnostics emitted.  A falsy
row gives `[]`; an array passes through; a non-empty schema drives one
type-directed coercion per descriptor; otherwise the warning fallback
runs. -/
def transformRowToArray (row : JSVal) (containerSchema : Option (List GridDBColumn)) :
    Except JsErr (List JSVal × List String) :=
  if jsTruthy row = false then .ok ([], [])
  else
    match row with
    | .varr elems => .ok (elems, [])
    | _ =>
      match containerSchema with
      | some cols =>
        if 0 < cols.length then
          (cols.mapM fun col => convertToGridDBType (rowIndex row col.name) col.type).map
            fun vs => (vs, [])
        else rowFallback row
      | none => rowFallback row

/-- Object property assignment `row[col] = v`: replace the binding in
place if the key exists, otherwise append it. -/
def objSet (fields : List (String × JSVal)) (name : String) (v : JSVal) :
    List (String × JSVal) :=
  match fields with
  | [] => [(name, v)]
  | (k, w) :: rest => if k = name then (k, v) :: rest else (k, w) :: objSet rest name v

/-- `transformArrayToRow` (transformers.ts:44): zip the wire row against
the column names by sequential assignment; a missing input gives the
empty row; positions beyond the array's length read as `undefined`. -/
def transformArrayToRow (array : Option (List JSVal)) (columns : Option (List String)) :
    List (String × JSVal) :=
  match array, columns with
  | some arr, some cols =>
    (cols.enum).foldl (fun acc p => objSet acc p.2 (arr.getD p.1 .vundefined)) []
  | _, _ => []

/-- `fromGridDBValue` (transformers.ts:183): null passes through; a
string under a `TIMESTAMP` type is reconstructed as a date; a string
under `BLOB` stays base64 text; everything else passes through. -/
def fromGridDBValue (value : JSVal) (type : Option String) : JSVal :=
  match value with
  | .vnull => .vnull
  | .vundefined => .vnull
  | .vstr s =>
    if type = some "TIMESTAMP" then .vdate (parseIsoString s)
    else .vstr s
  | v => v

theorem digitChar_facts : ∀ q : Nat, q < 10 →
    ((digitChar q).isDigit = true ∧ (digitChar q).toNat - 48 = q ∧
      digitChar q ≠ '+' ∧ digitChar q ≠ '-') := by decide

theorem readDigits_padDigits (w : Nat) :
    ∀ acc n rest, n < 10 ^ w →
      readDigits w acc (padDigits w n ++ rest) = some (acc * 10 ^ w + n, rest) := by
  induction w with
  | zero =>
    intro acc n rest hn
    have hn0 : n = 0 := by omega
    subst hn0
    simp [padDigits, readDigits]
  | succ w ih =>
    intro acc n rest hn
    have hpow : 0 < 10 ^ w := pow_pos (by omega) w
    have h1 : n < 10 ^ w * 10 := by rw [← pow_succ]; exact hn
    have hq : n / 10 ^ w < 10 := Nat.div_lt_of_lt_mul h1
    obtain ⟨hdig, hval, _, _⟩ := digitChar_facts _ hq
    have hr : n % 10 ^ w < 10 ^ w := Nat.mod_lt _ hpow
    calc readDigits (w + 1) acc (padDigits (w + 1) n ++ rest)
        = readDigits w (acc * 10 + (n / 10 ^ w)) (padDigits w (n % 10 ^ w) ++ rest) := by
          simp [padDigits, readDigits, hdig, hval]
      _ = some ((acc * 10 + n / 10 ^ w) * 10 ^ w + n % 10 ^ w, rest) := ih _ _ _ hr
      _ = some (acc * 10 ^ (w + 1) + n, rest) := by
          have hdm := Nat.div_add_mod n (10 ^ w)
          have h2 : (acc * 10 + n / 10 ^ w) * 10 ^ w + n % 10 ^ w
              = acc * 10 ^ (w + 1) + (10 ^ w * (n / 10 ^ w) + n % 10 ^ w) := by ring
          rw [h2, hdm]

theorem readDigits_padDigits0 (w n : Nat) (rest : List Char) (hn : n < 10 ^ w) :
    readDigits w 0 (padDigits w n ++ rest) = some (n, rest) := by
  simpa using readDigits_padDigits w 0 n rest hn

theorem expectChar_cons (c : Char) (rest : List Char) : expectChar c (c :: rest) = some rest := by
  simp [expectChar]

theorem daysInMonthJs_le (y : Int) (m : Nat) : daysInMonthJs y m ≤ 31 := by
  unfold daysInMonthJs
  repeat' split
  all_goals omega

set_option maxHeartbeats 3200000 in
theorem parseIsoTail_round (c : DateComps) (h : validComps c = true) :
    parseIsoTail c.y
      ('-' :: (padDigits 2 c.m ++ '-' :: (padDigits 2 c.d ++
        'T' :: (padDigits 2 c.hh ++ ':' :: (padDigits 2 c.mi ++
        ':' :: (padDigits 2 c.ss ++ '.' :: (padDigits 3 c.ms ++ ['Z']))))))) = some c := by
  obtain ⟨y, m, d, hh, mi, ss, ms⟩ := c
  have hb : 1 ≤ m ∧ m ≤ 12 ∧ 1 ≤ d ∧ d ≤ daysInMonthJs y m ∧ hh ≤ 23 ∧ mi ≤ 59 ∧
      ss ≤ 59 ∧ ms ≤ 999 ∧ -271821 ≤ y ∧ y ≤ 275760 := by
    simpa [validComps, Bool.and_eq_true, decide_eq_true_eq, and_assoc] using h
  have hd31 : d ≤ 31 := le_trans hb.2.2.2.1 (daysInMonthJs_le y m)
  have hm : m < 10 ^ 2 := by have := hb.2.1; omega
  have hdlt : d < 10 ^ 2 := by omega
  have hhh : hh < 10 ^ 2 := by have := hb.2.2.2.2.1; omega
  have hmi : mi < 10 ^ 2 := by have := hb.2.2.2.2.2.1; omega
  have hss : ss < 10 ^ 2 := by have := hb.2.2.2.2.2.2.1; omega
  have hms : ms < 10 ^ 3 := by have := hb.2.2.2.2.2.2.2.1; omega
  simp only [parseIsoTail, Option.bind_eq_bind]
  rw [expectChar_cons]
  simp only [Option.some_bind]
  rw [readDigits_padDigits0 2 m _ hm]
  simp only [Option.some_bind]
  rw [expectChar_cons]
  simp only [Option.some_bind]
  rw [readDigits_padDigits0 2 d _ hdlt]
  simp only [Option.some_bind]
  rw [expectChar_cons]
  simp only [Option.some_bind]
  rw [readDigits_padDigits0 2 hh _ hhh]
  simp only [Option.some_bind]
  rw [expectChar_cons]
  simp only [Option.some_bind]
  rw [readDigits_padDigits0 2 mi _ hmi]
  simp only [Option.some_bind]
  rw [expectChar_cons]
  simp only [Option.some_bind]
  rw [readDigits_padDigits0 2 ss _ hss]
  simp only [Option.some_bind]
  rw [expectChar_cons]
  simp only [Option.some_bind]
  rw [readDigits_padDigits0 3 ms _ hms]
  simp only [Option.some_bind]
  rw [expectChar_cons]
  simp only [Option.some_bind]
  simp [h]

theorem parseIsoChars_pad4 (n : Nat) (rest : List Char) (hn : n < 10 ^ 4) :
    parseIsoChars (padDigits 4 n ++ rest) = parseIsoTail (n : Int) rest := by
  have hq : n / 10 ^ 3 < 10 := Nat.div_lt_of_lt_mul (by rw [← pow_succ]; exact hn)
  obtain ⟨_, _, hplus, hminus⟩ := digitChar_facts _ hq
  have hshape : padDigits 4 n ++ rest
      = digitChar (n / 10 ^ 3) :: (padDigits 3 (n % 10 ^ 3) ++ rest) := by
    simp [padDigits]
  rw [hshape]
  simp only [parseIsoChars]
  rw [if_neg hplus, if_neg hminus, ← hshape, readDigits_padDigits0 4 n rest hn]
  simp only [Option.some_bind]

theorem parseIso_isoChars (c : DateComps) (h : validComps c = true) :
    parseIsoChars (isoChars c) = some c := by
  have hb : 1 ≤ c.m ∧ c.m ≤ 12 ∧ 1 ≤ c.d ∧ c.d ≤ daysInMonthJs c.y c.m ∧ c.hh ≤ 23 ∧
      c.mi ≤ 59 ∧ c.ss ≤ 59 ∧ c.ms ≤ 999 ∧ -271821 ≤ c.y ∧ c.y ≤ 275760 := by
    simpa [validComps, Bool.and_eq_true, decide_eq_true_eq, and_assoc] using h
  have hylb : -271821 ≤ c.y := hb.2.2.2.2.2.2.2.2.1
  have hyub : c.y ≤ 275760 := hb.2.2.2.2.2.2.2.2.2
  have hpm : ¬('-' = '+') := by decide
  by_cases h0 : 0 ≤ c.y ∧ c.y ≤ 9999
  · have hn : c.y.toNat < 10 ^ 4 := by omega
    have hcast : (c.y.toNat : Int) = c.y := by omega
    rw [isoChars, yearChars, if_pos h0]
    simp only [List.cons_append, List.append_assoc]
    rw [parseIsoChars_pad4 _ _ hn, hcast]
    exact parseIsoTail_round c h
  · by_cases hneg : c.y < 0
    · have hn : (-c.y).toNat < 10 ^ 6 := by omega
      have hne : ¬((-c.y).toNat = 0) := by omega
      have hcast : -((-c.y).toNat : Int) = c.y := by omega
      rw [isoChars, yearChars, if_neg h0, if_pos hneg]
      simp only [List.cons_append, List.append_assoc]
      simp only [parseIsoChars, if_true]
      rw [readDigits_padDigits0 6 _ _ hn]
      simp only [Option.some_bind]
      rw [if_neg hne, hcast]
      exact parseIsoTail_round c h
    · have hn : c.y.toNat < 10 ^ 6 := by omega
      have hcast : (c.y.toNat : Int) = c.y := by omega
      rw [isoChars, yearChars, if_neg h0, if_neg hneg]
      simp only [List.cons_append, List.append_assoc]
      simp only [parseIsoChars, if_true]
      rw [readDigits_padDigits0 6 _ _ hn]
      simp only [Option.some_bind]
      rw [hcast]
      exact parseIsoTail_round c h

theorem parseIso_isoString (c : DateComps) (h : validComps c = true) :
    parseIsoString (isoString c) = some c := by
  have hdata : (isoString c).data = isoChars c := rfl
  rw [parseIsoString, hdata]
  exact parseIso_isoChars c h

theorem mapM_ok_forall2 {α β : Type} (f : α → Except JsErr β) :
    ∀ (l : List α) (r : List β), l.mapM f = .ok r →
      List.Forall₂ (fun a b => f a = .ok b) l r := by
  intro l
  induction l with
  | nil =>
    intro r h
    simp only [List.mapM_nil] at h
    cases h
    exact List.Forall₂.nil
  | cons a t ih =>
    intro r h
    rw [List.mapM_cons] at h
    cases hfa : f a with
    | error e =>
      rw [hfa] at h
      simp only [bind, Except.bind] at h
      exact Except.noConfusion h
    | ok b =>
      rw [hfa] at h
      cases ht : t.mapM f with
      | error e =>
        rw [ht] at h
        simp only [bind, Except.bind, Functor.map, Except.map] at h
        exact Except.noConfusion h
      | ok bs =>
        rw [ht] at h
        simp only [bind, Except.bind, Functor.map, Except.map] at h
        cases h
        exact List.Forall₂.cons hfa (ih bs ht)

theorem objSet_fresh (name : String) (v : JSVal) :
    ∀ fields : List (String × JSVal), fields.lookup name = none →
      objSet fields name v = fields ++ [(name, v)] := by
  intro fields
  induction fields with
  | nil => intro _; simp [objSet]
  | cons p rest ih =>
    intro h
    obtain ⟨k, w⟩ := p
    cases hbeq : name == k with
    | true =>
      simp only [List.lookup_cons, hbeq] at h
      exact Option.noConfusion h
    | false =>
      simp only [List.lookup_cons, hbeq] at h
      have hk : ¬(k = name) := by
        intro he
        subst he
        simp at hbeq
      simp [objSet, hk, ih h]

theorem lookup_append_none {β : Type} (a : String) (l1 l2 : List (String × β))
    (h : l1.lookup a = none) : (l1 ++ l2).lookup a = l2.lookup a := by
  induction l1 with
  | nil => simp
  | cons p rest ih =>
    obtain ⟨k, w⟩ := p
    cases hbeq : a == k with
    | true =>
      simp only [List.lookup_cons, hbeq] at h
      exact Option.noConfusion h
    | false =>
      simp only [List.lookup_cons, hbeq] at h
      simp only [List.cons_append, List.lookup_cons, hbeq]
      exact ih h

theorem decode_foldl (arr : List JSVal) :
    ∀ (pairs : List (Nat × String)) (acc : List (String × JSVal)),
      (∀ p ∈ pairs, acc.lookup p.2 = none) →
      (pairs.map Prod.snd).Nodup →
      pairs.foldl (fun a p => objSet a p.2 (arr.getD p.1 .vundefined)) acc
        = acc ++ pairs.map (fun p => (p.2, arr.getD p.1 .vundefined)) := by
  intro pairs
  induction pairs with
  | nil => intro acc _ _; simp
  | cons p rest ih =>
    intro acc hfresh hnd
    obtain ⟨i, nm⟩ := p
    simp only [List.foldl_cons]
    have h1 : acc.lookup nm = none := hfresh (i, nm) (List.mem_cons_self _ _)
    rw [objSet_fresh nm _ acc h1]
    have hnd2 : (rest.map Prod.snd).Nodup := by
      simp only [List.map_cons, List.nodup_cons] at hnd
      exact hnd.2
    have hnm : nm ∉ rest.map Prod.snd := by
      simp only [List.map_cons, List.nodup_cons] at hnd
      exact hnd.1
    have hfresh2 : ∀ q ∈ rest, (acc ++ [(nm, arr.getD i .vundefined)]).lookup q.2 = none := by
      intro q hq
      rw [lookup_append_none _ _ _ (hfresh q (List.mem_cons_of_mem _ hq))]
      have hqne : (q.2 == nm) = false := by
        simp only [beq_eq_false_iff_ne]
        intro he
        exact hnm (he ▸ List.mem_map_of_mem Prod.snd hq)
      simp [List.lookup_cons, hqne]
    rw [ih _ hfresh2 hnd2, List.append_assoc]
    simp

theorem lookup_enumFrom_map (arr : List JSVal) :
    ∀ (cols : List String) (k i : Nat) (hi : i < cols.length), cols.Nodup →
      ((cols.enumFrom k).map (fun p => (p.2, arr.getD p.1 .vundefined))).lookup
          (cols.get ⟨i, hi⟩)
        = some (arr.getD (k + i) .vundefined) := by
  intro cols
  induction cols with
  | nil => intro k i hi _; simp at hi
  | cons c rest ih =>
    intro k i hi hnd
    simp only [List.nodup_cons] at hnd
    match i, hi with
    | 0, hi =>
      simp [List.enumFrom_cons, List.lookup_cons]
    | Nat.succ j, hi =>
      have hj : j < rest.length := by simpa using hi
      have hgot : (c :: rest).get ⟨j + 1, hi⟩ = rest.get ⟨j, hj⟩ := rfl
      have hne : (rest.get ⟨j, hj⟩ == c) = false := by
        simp only [beq_eq_false_iff_ne]
        intro he
        exact hnd.1 (he ▸ List.get_mem rest _ _)
      rw [hgot]
      simp only [List.enumFrom_cons, List.map_cons, List.lookup_cons, hne]
      have hix : k + 1 + j = k + (j + 1) := by omega
      rw [ih (k + 1) j hj hnd.2, hix]

/-- The encode result of the schema path, seen through its values: a
non-empty schema makes `transformRowToArray` the descriptor-order
traversal of the type-directed coercion. -/
theorem encode_ok_mapM (fields : List (String × JSVal)) (cols : List GridDBColumn)
    (arr : List JSVal) (hcols : cols ≠ [])
    (h : (transformRowToArray (.vobj fields) (some cols)).map Prod.fst = .ok arr) :
    cols.mapM (fun col => convertToGridDBType (objGet fields col.name) col.type) = .ok arr := by
  have hlen : 0 < cols.length := List.length_pos.mpr hcols
  have hdef : transformRowToArray (.vobj fields) (some cols)
      = (if 0 < cols.length then
          (cols.mapM fun col =>
            convertToGridDBType (rowIndex (.vobj fields) col.name) col.type).map
              (fun vs => (vs, ([] : List String)))
        else rowFallback (.vobj fields)) := rfl
  rw [hdef, if_pos hlen] at h
  cases hm : cols.mapM (fun col => convertToGridDBType (rowIndex (.vobj fields) col.name) col.type) with
  | error e =>
    rw [hm] at h
    simp [Except.map] at h
  | ok vs =>
    rw [hm] at h
    simp only [Except.map] at h
    cases h
    simpa [rowIndex] using hm

/-- The decoded row is the name-to-value zip when the names are nodup. -/
theorem transformArrayToRow_eq (arr : List JSVal) (cols : List String) (hnd : cols.Nodup) :
    transformArrayToRow (some arr) (some cols)
      = (cols.enum).map (fun p => (p.2, arr.getD p.1 .vundefined)) := by
  rw [transformArrayToRow]
  have h1 : ∀ p ∈ cols.enum, ([] : List (String × JSVal)).lookup p.2 = none := by
    intro p _
    simp
  have h2 : (cols.enum.map Prod.snd).Nodup := by
    rw [List.enum_eq_enumFrom, List.enumFrom_map_snd]
    exact hnd
  rw [decode_foldl arr cols.enum [] h1 h2]
  simp

theorem decode_lookup_of_mapM (fields : List (String × JSVal)) (cols : List GridDBColumn)
    (arr : List JSVal) (hnd : (cols.map GridDBColumn.name).Nodup)
    (hm : cols.mapM (fun col => convertToGridDBType (objGet fields col.name) col.type) = .ok arr)
    (i : Nat) (hi : i < cols.length) :
    (transformArrayToRow (some arr) (some (cols.map GridDBColumn.name))).lookup
        (cols.get ⟨i, hi⟩).name
      = some (arr.getD i .vundefined) ∧
    convertToGridDBType (objGet fields (cols.get ⟨i, hi⟩).name) (cols.get ⟨i, hi⟩).type
      = .ok (arr.getD i .vundefined) := by
  have hf2 := mapM_ok_forall2 _ cols arr hm
  have hlen : cols.length = arr.length := hf2.length_eq
  have hi2 : i < arr.length := hlen ▸ hi
  have hgetD : arr.getD i .vundefined = arr.get ⟨i, hi2⟩ := List.getD_eq_get arr _ hi2
  have hrel := (List.forall₂_iff_get.mp hf2).2 i hi hi2
  constructor
  · rw [transformArrayToRow_eq arr _ hnd, List.enum_eq_enumFrom]
    have hmi : i < (cols.map GridDBColumn.name).length := by simpa using hi
    have hgetmap : (cols.map GridDBColumn.name).get ⟨i, hmi⟩ = (cols.get ⟨i, hi⟩).name := by
      simp [List.get_map]
    have hlk := lookup_enumFrom_map arr (cols.map GridDBColumn.name) 0 i hmi hnd
    rw [hgetmap] at hlk
    simpa using hlk
  · rw [hgetD]
    exact hrel

theorem lookup_none_of_not_mem (name : String) :
    ∀ fields : List (String × JSVal), name ∉ fields.map Prod.fst →
      fields.lookup name = none := by
  intro fields
  induction fields with
  | nil => intro _; simp
  | cons p rest ih =>
    intro h
    obtain ⟨k, w⟩ := p
    simp only [List.map_cons, List.mem_cons] at h
    push_neg at h
    have hbeq : (name == k) = false := by
      simp only [beq_eq_false_iff_ne]
      exact h.1
    simp only [List.lookup_cons, hbeq]
    exact ih h.2

/-- C1 failing evaluation: encoding the string `"not-a-date"` for a
`TIMESTAMP` column goes through `new Date(value).toISOString()` on an
invalid date and throws a `RangeError`, while an invalid `Date`
instance is mapped to null by the guarded branch. -/
theorem C1_timestamp_invalid_construction_throws :
    convertToGridDBType (.vstr "not-a-date") "TIMESTAMP"
      = .error (.rangeError "Invalid time value") ∧
    convertToGridDBType (.vdate none) "TIMESTAMP" = .ok .vnull :=
  ⟨rfl, rfl⟩

/-- C5: with a schema whose descriptor names cover the row's keys, the
encoder produces exactly one value per descriptor, in descriptor order,
by looking the descriptor's name up in the row and applying the
type-directed coercion; a name absent from the row coerces to null. -/
theorem C5_encode_descriptor_order (fields : List (String × JSVal)) (cols : List GridDBColumn)
    (hcover : ∀ k ∈ fields.map Prod.fst, k ∈ cols.map GridDBColumn.name) :
    (transformRowToArray (.vobj fields) (some cols)).map Prod.fst
      = cols.mapM (fun col => convertToGridDBType (objGet fields col.name) col.type) ∧
    ∀ col ∈ cols, col.name ∉ fields.map Prod.fst →
      convertToGridDBType (objGet fields col.name) col.type = .ok .vnull := by
  constructor
  · match cols with
    | [] =>
      have hf : fields = [] := by
        match fields with
        | [] => rfl
        | p :: rest =>
          have hmem := hcover p.1 (by simp)
          simp at hmem
      subst hf
      rfl
    | c :: rest =>
      have hdef : transformRowToArray (.vobj fields) (some (c :: rest))
          = (if 0 < (c :: rest).length then
              ((c :: rest).mapM fun col =>
                convertToGridDBType (rowIndex (.vobj fields) col.name) col.type).map
                  (fun vs => (vs, ([] : List String)))
            else rowFallback (.vobj fields)) := rfl
      rw [hdef, if_pos (by simp)]
      have hrow : (fun (col : GridDBColumn) =>
            convertToGridDBType (rowIndex (.vobj fields) col.name) col.type)
          = fun col => convertToGridDBType (objGet fields col.name) col.type := rfl
      rw [hrow]
      cases hm : (c :: rest).mapM
          (fun col => convertToGridDBType (objGet fields col.name) col.type) with
      | error e => simp [Except.map, hm]
      | ok vs => simp [Except.map, hm]
  · intro col _ habs
    have hlk : fields.lookup col.name = none := lookup_none_of_not_mem col.name fields habs
    have hget : objGet fields col.name = .vundefined := by
      rw [objGet, hlk]
    rw [hget]
    rfl

/-- C5 witness: `encode({id: 1, name: "Alice"})` against the schema
`[INTEGER id, STRING name]` yields `[1, "Alice"]`. -/
theorem C5_encode_descriptor_order_witness :
    (∀ k ∈ ([("id", JSVal.vnum 1), ("name", JSVal.vstr "Alice")].map Prod.fst),
        k ∈ [GridDBColumn.mk "id" "INTEGER", GridDBColumn.mk "name" "STRING"].map
          GridDBColumn.name) ∧
    (transformRowToArray (.vobj [("id", JSVal.vnum 1), ("name", JSVal.vstr "Alice")])
        (some [GridDBColumn.mk "id" "INTEGER", GridDBColumn.mk "name" "STRING"])).map Prod.fst
      = .ok [JSVal.vnum 1, JSVal.vstr "Alice"] := by
  refine ⟨by decide, ?_⟩
  rw [(C5_encode_descriptor_order
    [("id", JSVal.vnum 1), ("name", JSVal.vstr "Alice")]
    [GridDBColumn.mk "id" "INTEGER", GridDBColumn.mk "name" "STRING"] (by decide)).1]
  rfl

/-- C6: decoding the encoded wire row against the schema's name sequence
reproduces every value present in the row whose declared type represents
it exactly; and a timestamp column holding a valid date decodes to the
ISO text of the instant, from which the date-reconstruction conversion
recovers exactly the original UTC instant. -/
theorem C6_decode_encode_roundtrip :
    (∀ (fields : List (String × JSVal)) (cols : List GridDBColumn) (c : GridDBColumn)
        (v : JSVal) (arr : List JSVal),
      (cols.map GridDBColumn.name).Nodup → c ∈ cols →
      fields.lookup c.name = some v →
      convertToGridDBType v c.type = .ok v →
      (transformRowToArray (.vobj fields) (some cols)).map Prod.fst = .ok arr →
      (transformArrayToRow (some arr) (some (cols.map GridDBColumn.name))).lookup c.name
        = some v) ∧
    (∀ (fields : List (String × JSVal)) (cols : List GridDBColumn) (c : GridDBColumn)
        (comps : DateComps) (arr : List JSVal),
      (cols.map GridDBColumn.name).Nodup → c ∈ cols →
      fields.lookup c.name = some (.vdate (some comps)) →
      jsToUpper c.type = "TIMESTAMP" → validComps comps = true →
      (transformRowToArray (.vobj fields) (some cols)).map Prod.fst = .ok arr →
      (transformArrayToRow (some arr) (some (cols.map GridDBColumn.name))).lookup c.name
        = some (.vstr (isoString comps)) ∧
      fromGridDBValue (.vstr (isoString comps)) (some "TIMESTAMP")
        = .vdate (some comps)) := by
  constructor
  · intro fields cols c v arr hnd hc hmem hrepr henc
    have hcols : cols ≠ [] := by
      intro he
      rw [he] at hc
      simp at hc
    have hm := encode_ok_mapM fields cols arr hcols henc
    obtain ⟨⟨i, hi⟩, hget⟩ := List.mem_iff_get.mp hc
    obtain ⟨h1, h2⟩ := decode_lookup_of_mapM fields cols arr hnd hm i hi
    rw [hget] at h1 h2
    have hobj : objGet fields c.name = v := by
      rw [objGet, hmem]
    rw [hobj, hrepr] at h2
    have hval : arr.getD i .vundefined = v := (Except.ok.inj h2).symm
    rw [hval] at h1
    exact h1
  · intro fields cols c comps arr hnd hc hmem hup hvalid henc
    have hcols : cols ≠ [] := by
      intro he
      rw [he] at hc
      simp at hc
    have hm := encode_ok_mapM fields cols arr hcols henc
    obtain ⟨⟨i, hi⟩, hget⟩ := List.mem_iff_get.mp hc
    obtain ⟨h1, h2⟩ := decode_lookup_of_mapM fields cols arr hnd hm i hi
    rw [hget] at h1 h2
    have hobj : objGet fields c.name = .vdate (some comps) := by
      rw [objGet, hmem]
    have hconv : convertToGridDBType (.vdate (some comps)) c.type
        = convertByType (.vdate (some comps)) (jsToUpper c.type) := rfl
    rw [hobj, hconv, hup] at h2
    have hval : arr.getD i .vundefined = .vstr (isoString comps) := by
      have : convertByType (.vdate (some comps)) "TIMESTAMP"
          = .ok (.vstr (isoString comps)) := rfl
      rw [this] at h2
      exact (Except.ok.inj h2).symm
    rw [hval] at h1
    refine ⟨h1, ?_⟩
    have hfrom : fromGridDBValue (.vstr (isoString comps)) (some "TIMESTAMP")
        = .vdate (parseIsoString (isoString comps)) := rfl
    rw [hfrom, parseIso_isoString comps hvalid]

/-- C6 witness: a two-column row with an integer and a timestamp
round-trips; the timestamp decodes to its ISO text and reconstructs the
original instant. -/
theorem C6_decode_encode_roundtrip_witness :
    (transformArrayToRow (some [JSVal.vnum 7, JSVal.vstr "2024-01-01T00:00:00.000Z"])
        (some ["id", "ts"])).lookup "id" = some (JSVal.vnum 7) ∧
    (transformArrayToRow (some [JSVal.vnum 7, JSVal.vstr "2024-01-01T00:00:00.000Z"])
        (some ["id", "ts"])).lookup "ts" = some (JSVal.vstr "2024-01-01T00:00:00.000Z") ∧
    fromGridDBValue (JSVal.vstr "2024-01-01T00:00:00.000Z") (some "TIMESTAMP")
      = .vdate (some ⟨2024, 1, 1, 0, 0, 0, 0⟩) := by
  refine ⟨?_, ?_, ?_⟩
  · exact C6_decode_encode_roundtrip.1
      [("id", JSVal.vnum 7), ("ts", JSVal.vdate (some ⟨2024, 1, 1, 0, 0, 0, 0⟩))]
      [GridDBColumn.mk "id" "INTEGER", GridDBColumn.mk "ts" "TIMESTAMP"]
      (GridDBColumn.mk "id" "INTEGER") (JSVal.vnum 7)
      [JSVal.vnum 7, JSVal.vstr "2024-01-01T00:00:00.000Z"]
      (by decide) (by decide) rfl rfl rfl
  · exact (C6_decode_encode_roundtrip.2
      [("id", JSVal.vnum 7), ("ts", JSVal.vdate (some ⟨2024, 1, 1, 0, 0, 0, 0⟩))]
      [GridDBColumn.mk "id" "INTEGER", GridDBColumn.mk "ts" "TIMESTAMP"]
      (GridDBColumn.mk "ts" "TIMESTAMP") ⟨2024, 1, 1, 0, 0, 0, 0⟩
      [JSVal.vnum 7, JSVal.vstr "2024-01-01T00:00:00.000Z"]
      (by decide) (by decide) rfl rfl (by decide) rfl).1
  · exact (C6_decode_encode_roundtrip.2
      [("id", JSVal.vnum 7), ("ts", JSVal.vdate (some ⟨2024, 1, 1, 0, 0, 0, 0⟩))]
      [GridDBColumn.mk "id" "INTEGER", GridDBColumn.mk "ts" "TIMESTAMP"]
      (GridDBColumn.mk "ts" "TIMESTAMP") ⟨2024, 1, 1, 0, 0, 0, 0⟩
      [JSVal.vnum 7, JSVal.vstr "2024-01-01T00:00:00.000Z"]
      (by decide) (by decide) rfl rfl (by decide) rfl).2

/-- C7: encoding a keyed (plain-object) row with no schema never raises,
emits the warning-level diagnostic, and returns the generic coercion of
the row's values in key insertion order — in particular one output value
per key. -/
theorem C7_encode_no_schema_warns (fields : List (String × JSVal)) :
    transformRowToArray (.vobj fields) none
      = .ok ((fields.map fun p => p.2).map toGridDBValue, [noSchemaWarning]) ∧
    ((fields.map fun p => p.2).map toGridDBValue).length = fields.length := by
  constructor
  · rfl
  · simp

/-! ## Request executor (src/core/client.ts) -/

/-- Outcome of one `fetch` attempt: an HTTP response (status and body
text), or a rejection (network failure, or the timeout-triggered
abort). -/
inductive FetchOutcome where
  | response (status : Nat) (body : String)
  | netError (msg : String)
deriving DecidableEq, Repr

/-- The `GridDBError` class (types module) and plain `Error`s thrown by
`fetch`.  `GridDBError` carries `message`, optional `code` and `status`,
and a `details` payload which in the embedded code is either a response
body text or a wrapped underlying error. -/
inductive JsError where
  | plainError (message : String)
  | griddbError (message : String) (code : Option Nat) (status : Option Nat)
      (detailsText : Option String) (detailsErr : Option JsError)
deriving Repr

def JsError.messageOf : JsError → String
  | .plainError m => m
  | .griddbError m _ _ _ _ => m

def JsError.statusOf : JsError → Option Nat
  | .plainError _ => none
  | .griddbError _ _ st _ _ => st

def JsError.detailsErrOf : JsError → Option JsError
  | .plainError _ => none
  | .griddbError _ _ _ _ de => de

def JsError.detailsTextOf : JsError → Option String
  | .plainError _ => none
  | .griddbError _ _ _ dt _ => dt

/-- The `GridDBError` thrown on a non-ok HTTP response (client.ts:102):
carries the status as both `code` and `status` and the raw body as
`details`.  (`response.statusText`, used in the message only when the
body is empty, is modelled as the empty string.) -/
def httpErrorOf (status : Nat) (body : String) : JsError :=
  .griddbError ("HTTP error! status: " ++ toString status ++ " - " ++ body)
    (some status) (some status) (some body) none

/-- The `GridDBError` thrown after retry exhaustion (client.ts:140): the
message cites the configured attempt count and the last error's message,
`code` and `status` are undefined, and `details` is the last underlying
error (`undefined` interpolates as the literal text when absent). -/
def exhaustedErrorOf (retryAttempts : Nat) (lastError : Option JsError) : JsError :=
  .griddbError
    ("Request failed after " ++ toString retryAttempts ++ " attempts: " ++
      (match lastError with
       | some e => e.messageOf
       | none => "undefined"))
    none none none lastError

/-- Decoded success payload (client.ts:111): an empty body gives `{}`;
a non-empty body is JSON-parsed with fallback to the raw text.  The
parse is a pure re-presentation of the text that never fails and never
affects control flow, so the model keeps the raw text. -/
inductive RespBody where
  | emptyObj
  | textBody (s : String)
deriving DecidableEq, Repr

def decodeBody (s : String) : RespBody :=
  if s = "" then .emptyObj else .textBody s

/-- Result of one `request` call: number of `fetch` attempts performed,
the backoff delays awaited between attempts (in order), and the outcome. -/
structure RunResult where
  attemptsMade : Nat
  delays : List Nat
  outcome : Except JsError RespBody
deriving Repr

/-- The retry loop of `request` (client.ts:83), one iteration per
attempt.  `trace` gives the outcome of the `attempt`-th `fetch` (the
network is the only nondeterminism).  A response with status in
[200,300) (`response.ok`) succeeds; a thrown `GridDBError` with status
in [400,500) is re-raised immediately; any other failure stores the
error, sleeps `retryDelay * attempt` when `attempt < retryAttempts`,
and moves to the next iteration; when the loop ends the exhaustion
error wrapping the last error is thrown.  `remaining` counts the loop
iterations left. -/
def requestGo (retryAttempts retryDelay : Nat) (trace : Nat → FetchOutcome) :
    Nat → Nat → Option JsError → List Nat → RunResult
  | attempt, 0, lastError, delays =>
    ⟨attempt - 1, delays, .error (exhaustedErrorOf retryAttempts lastError)⟩
  | attempt, r + 1, _, delays =>
    match trace attempt with
    | .response status body =>
      if 200 ≤ status ∧ status < 300 then ⟨attempt, delays, .ok (decodeBody body)⟩
      else
        let e := httpErrorOf status body
        if 400 ≤ status ∧ status < 500 then ⟨attempt, delays, .error e⟩
        else
          requestGo retryAttempts retryDelay trace (attempt + 1) r (some e)
            (if attempt < retryAttempts then delays ++ [retryDelay * attempt] else delays)
    | .netError msg =>
      let e := JsError.plainError msg
      requestGo retryAttempts retryDelay trace (attempt + 1) r (some e)
        (if attempt < retryAttempts then delays ++ [retryDelay * attempt] else delays)

/-- `request` (client.ts:57): run the retry loop from attempt 1.
Headers, authentication, URL and body serialization carry no control
flow and are not modelled. -/
def request (retryAttempts retryDelay : Nat) (trace : Nat → FetchOutcome) : RunResult :=
  requestGo retryAttempts retryDelay trace 1 retryAttempts none []

/-- `containerExists` (client.ts:179): `true` on success of the info
`get`, `false` when the raised error is a `GridDBError` with status
exactly 404, and the error re-raised unchanged otherwise. -/
def containerExists (retryAttempts retryDelay : Nat) (trace : Nat → FetchOutcome) :
    Except JsError Bool :=
  match (request retryAttempts retryDelay trace).outcome with
  | .ok _ => .ok true
  | .error e => if e.statusOf = some 404 then .ok false else .error e

/-- The retry condition of the catch block: anything that is not a
success and not a thrown `GridDBError` with 4xx status is stored and
retried. -/
def retryableOutcome : FetchOutcome → Prop
  | .response s _ => ¬(200 ≤ s ∧ s < 300) ∧ ¬(400 ≤ s ∧ s < 500)
  | .netError _ => True

/-- The error the catch block stores for a failed attempt. -/
def errOfOutcome : FetchOutcome → JsError
  | .response s b => httpErrorOf s b
  | .netError m => .plainError m

theorem requestGo_exhaust (n d : Nat) (trace : Nat → FetchOutcome) :
    ∀ (r attempt : Nat) (le : Option JsError) (ds : List Nat),
      attempt + r = n + 1 → 1 ≤ attempt →
      (∀ k, attempt ≤ k → k ≤ n → retryableOutcome (trace k)) →
      requestGo n d trace attempt r le ds
        = ⟨n, ds ++ (List.range' attempt (n - attempt)).map (fun k => d * k),
            .error (exhaustedErrorOf n
              (if r = 0 then le else some (errOfOutcome (trace n))))⟩ := by
  intro r
  induction r with
  | zero =>
    intro attempt le ds hsum h1 _
    have ha : attempt = n + 1 := by omega
    subst ha
    rw [requestGo]
    simp
  | succ r ih =>
    intro attempt le ds hsum h1 hre
    have hle : attempt ≤ n := by omega
    have hk := hre attempt (le_refl _) hle
    have hre2 : ∀ k, attempt + 1 ≤ k → k ≤ n → retryableOutcome (trace k) := by
      intro k hk1 hk2
      exact hre k (by omega) hk2
    cases ho : trace attempt with
    | response s b =>
      rw [ho] at hk
      rw [requestGo]
      simp only [ho]
      rw [if_neg hk.1, if_neg hk.2]
      rw [ih (attempt + 1) (some (httpErrorOf s b)) _ (by omega) (by omega) hre2]
      by_cases hr : r = 0
      · subst hr
        have ha : attempt = n := by omega
        subst ha
        simp [ho, errOfOutcome]
      · have halt : attempt < n := by omega
        rw [if_pos halt, if_neg hr]
        have hrange : List.range' attempt (n - attempt)
            = attempt :: List.range' (attempt + 1) (n - (attempt + 1)) := by
          have hcount : n - attempt = (n - (attempt + 1)) + 1 := by omega
          rw [hcount, List.range'_succ]
        rw [hrange]
        simp
    | netError m =>
      rw [requestGo]
      simp only [ho]
      rw [ih (attempt + 1) (some (.plainError m)) _ (by omega) (by omega) hre2]
      by_cases hr : r = 0
      · subst hr
        have ha : attempt = n := by omega
        subst ha
        simp [ho, errOfOutcome]
      · have halt : attempt < n := by omega
        rw [if_pos halt, if_neg hr]
        have hrange : List.range' attempt (n - attempt)
            = attempt :: List.range' (attempt + 1) (n - (attempt + 1)) := by
          have hcount : n - attempt = (n - (attempt + 1)) + 1 := by omega
          rw [hcount, List.range'_succ]
        rw [hrange]
        simp

theorem request_const_4xx (n d s : Nat) (body : String) (hn : 1 ≤ n)
    (h4 : 400 ≤ s) (h5 : s < 500) :
    request n d (fun _ => .response s body) = ⟨1, [], .error (httpErrorOf s body)⟩ := by
  obtain ⟨r, rfl⟩ : ∃ r, n = r + 1 := ⟨n - 1, by omega⟩
  rw [request, requestGo]
  simp only []
  rw [if_neg (by omega : ¬(200 ≤ s ∧ s < 300)), if_pos ⟨h4, h5⟩]

theorem request_const_2xx (n d s : Nat) (body : String) (hn : 1 ≤ n)
    (h2 : 200 ≤ s) (h3 : s < 300) :
    request n d (fun _ => .response s body) = ⟨1, [], .ok (decodeBody body)⟩ := by
  obtain ⟨r, rfl⟩ : ∃ r, n = r + 1 := ⟨n - 1, by omega⟩
  rw [request, requestGo]
  simp only []
  rw [if_pos ⟨h2, h3⟩]

theorem request_const_retryable (n d : Nat) (o : FetchOutcome) (hn : 1 ≤ n)
    (ho : retryableOutcome o) :
    request n d (fun _ => o)
      = ⟨n, (List.range' 1 (n - 1)).map (fun k => d * k),
          .error (exhaustedErrorOf n (some (errOfOutcome o)))⟩ := by
  have h := requestGo_exhaust n d (fun _ => o) n 1 none [] (by omega) (by omega)
    (fun k _ _ => ho)
  rw [request, h]
  simp only [List.nil_append]
  rw [if_neg (by omega : ¬(n = 0))]

/-- C2: a status code in [400,500) raises the fatal HTTP error after
exactly one network attempt, with no retries and no backoff sleeps. -/
theorem C2_4xx_single_attempt (n d s : Nat) (body : String) (hn : 1 ≤ n)
    (h4 : 400 ≤ s) (h5 : s < 500) :
    request n d (fun _ => .response s body) = ⟨1, [], .error (httpErrorOf s body)⟩ :=
  request_const_4xx n d s body hn h4 h5

/-- C2 witness: a 404 with three configured retry attempts performs one
attempt, sleeps never, and raises the fatal error. -/
theorem C2_4xx_single_attempt_witness :
    (1 ≤ 3 ∧ 400 ≤ 404 ∧ 404 < 500) ∧
    request 3 1000 (fun _ => .response 404 "Not Found")
      = ⟨1, [], .error (httpErrorOf 404 "Not Found")⟩ :=
  ⟨by decide, C2_4xx_single_attempt 3 1000 404 "Not Found" (by decide) (by decide) (by decide)⟩

/-- C3: when every attempt fails with a 5xx status or a network
failure, the executor performs exactly the configured number of
attempts, sleeps `retryDelay * attempt` between consecutive attempts (a
strictly increasing sequence), and raises a single fatal error whose
message cites the attempt count and whose details carry the last
underlying error. -/
theorem C3_retry_exhaustion (n d : Nat) (trace : Nat → FetchOutcome)
    (hn : 1 ≤ n) (hd : 1 ≤ d)
    (hfail : ∀ k, 1 ≤ k → k ≤ n →
      (∃ s b, trace k = .response s b ∧ 500 ≤ s ∧ s < 600) ∨
      (∃ m, trace k = .netError m)) :
    (request n d trace).attemptsMade = n ∧
    (request n d trace).delays = (List.range' 1 (n - 1)).map (fun k => d * k) ∧
    (request n d trace).delays.Chain' (· < ·) ∧
    (request n d trace).outcome
      = .error (.griddbError
          ("Request failed after " ++ toString n ++ " attempts: "
            ++ (errOfOutcome (trace n)).messageOf)
          none none none (some (errOfOutcome (trace n)))) := by
  have hre : ∀ k, 1 ≤ k → k ≤ n → retryableOutcome (trace k) := by
    intro k h1 h2
    rcases hfail k h1 h2 with ⟨s, b, he, h5, h6⟩ | ⟨m, he⟩
    · rw [he]
      exact ⟨by omega, by omega⟩
    · rw [he]
      trivial
  have h := requestGo_exhaust n d trace n 1 none [] (by omega) (by omega) hre
  rw [request] at *
  rw [h]
  refine ⟨rfl, by simp, ?_, ?_⟩
  · simp only [List.nil_append]
    apply List.Pairwise.chain'
    apply List.Pairwise.map
    · intro a b hab
      exact (mul_lt_mul_left (by omega : 0 < d)).mpr hab
    · exact List.pairwise_lt_range' 1 (n - 1)
  · rw [if_neg (by omega : ¬(n = 0))]
    rfl

/-- C3 witness: three attempts against a constant 500 yield 3 attempts,
sleeps of 1000 and 2000 ms, and the aggregated fatal error. -/
theorem C3_retry_exhaustion_witness :
    (request 3 1000 (fun _ => .response 500 "Server Error")).attemptsMade = 3 ∧
    (request 3 1000 (fun _ => .response 500 "Server Error")).delays = [1000, 2000] ∧
    (request 3 1000 (fun _ => .response 500 "Server Error")).delays.Chain' (· < ·) ∧
    (request 3 1000 (fun _ => .response 500 "Server Error")).outcome
      = .error (.griddbError
          "Request failed after 3 attempts: HTTP error! status: 500 - Server Error"
          none none none
          (some (.griddbError "HTTP error! status: 500 - Server Error"
            (some 500) (some 500) (some "Server Error") none))) := by
  have h := C3_retry_exhaustion 3 1000 (fun _ => .response 500 "Server Error")
    (by decide) (by decide)
    (fun k _ _ => .inl ⟨500, "Server Error", rfl, by decide, by decide⟩)
  exact h

/-- C4 counterexample: when every attempt fails with a network error,
the fatal exhaustion error carries no status code and no response body
anywhere — its own `status`, `code` and `details` text are all unset
and the wrapped last error is a plain transport error without a status
— refuting the claim that every fatal remote error carries the status
code and raw response body. -/
theorem C4_counterexample :
    (request 2 1 (fun _ => .netError "fetch failed")).outcome
      = .error (.griddbError "Request failed after 2 attempts: fetch failed"
          none none none (some (.plainError "fetch failed"))) ∧
    (exhaustedErrorOf 2 (some (.plainError "fetch failed"))).statusOf = none ∧
    (exhaustedErrorOf 2 (some (.plainError "fetch failed"))).detailsTextOf = none ∧
    (exhaustedErrorOf 2 (some (.plainError "fetch failed"))).detailsErrOf
      = some (.plainError "fetch failed") ∧
    (JsError.plainError "fetch failed").statusOf = none :=
  ⟨rfl, rfl, rfl, rfl, rfl⟩

/-- C4 amended: a fatal 4xx error carries the status code (in `status`
and `code`) and the raw response body (in `details`); the retry
exhaustion error instead carries the attempt count in its message and
the last underlying error as `details` — the status code and body
appear only inside that nested error when the last failure was an HTTP
failure, and not at all when it was a network/timeout failure. -/
theorem C4_fatal_error_payload (n d : Nat) (hn : 1 ≤ n) :
    (∀ s body, 400 ≤ s → s < 500 →
      (request n d (fun _ => .response s body)).outcome = .error (httpErrorOf s body) ∧
      (httpErrorOf s body).statusOf = some s ∧
      (httpErrorOf s body).detailsTextOf = some body) ∧
    (∀ s body, 500 ≤ s → s < 600 →
      (request n d (fun _ => .response s body)).outcome
        = .error (exhaustedErrorOf n (some (httpErrorOf s body))) ∧
      (exhaustedErrorOf n (some (httpErrorOf s body))).statusOf = none ∧
      (exhaustedErrorOf n (some (httpErrorOf s body))).detailsErrOf
        = some (httpErrorOf s body)) ∧
    (∀ m, (request n d (fun _ => .netError m)).outcome
        = .error (exhaustedErrorOf n (some (.plainError m))) ∧
      (exhaustedErrorOf n (some (.plainError m))).statusOf = none ∧
      (exhaustedErrorOf n (some (.plainError m))).detailsErrOf
        = some (.plainError m)) := by
  refine ⟨?_, ?_, ?_⟩
  · intro s body h4 h5
    refine ⟨?_, rfl, rfl⟩
    rw [request_const_4xx n d s body hn h4 h5]
  · intro s body h5 h6
    refine ⟨?_, rfl, rfl⟩
    have h := request_const_retryable n d (.response s body) hn ⟨by omega, by omega⟩
    rw [h]
    rfl
  · intro m
    refine ⟨?_, rfl, rfl⟩
    have h := request_const_retryable n d (.netError m) hn trivial
    rw [h]
    rfl

/-- C4 amended witness: one 403, one 503-exhaustion and one
network-exhaustion run, each showing where status and body live. -/
theorem C4_fatal_error_payload_witness :
    (request 2 7 (fun _ => .response 403 "Forbidden")).outcome
      = .error (httpErrorOf 403 "Forbidden") ∧
    (request 2 7 (fun _ => .response 503 "Unavailable")).outcome
      = .error (exhaustedErrorOf 2 (some (httpErrorOf 503 "Unavailable"))) ∧
    (request 2 7 (fun _ => .netError "timeout")).outcome
      = .error (exhaustedErrorOf 2 (some (.plainError "timeout"))) :=
  ⟨((C4_fatal_error_payload 2 7 (by decide)).1 403 "Forbidden" (by decide) (by decide)).1,
   ((C4_fatal_error_payload 2 7 (by decide)).2.1 503 "Unavailable" (by decide) (by decide)).1,
   ((C4_fatal_error_payload 2 7 (by decide)).2.2 "timeout").1⟩

/-- C9: the container-existence probe returns true exactly on a
successful info call, false exactly when the raised error has status
404, and re-raises the error unchanged for any other failure (a non-404
client error, a 5xx after retry exhaustion, or a network failure whose
exhaustion error carries no status). -/
theorem C9_containerExists_classifies (n d : Nat) (body : String) (hn : 1 ≤ n) :
    (∀ s, 200 ≤ s → s < 300 →
      containerExists n d (fun _ => .response s body) = .ok true) ∧
    containerExists n d (fun _ => .response 404 body) = .ok false ∧
    (∀ s, 400 ≤ s → s < 500 → s ≠ 404 →
      containerExists n d (fun _ => .response s body) = .error (httpErrorOf s body)) ∧
    (∀ s, 500 ≤ s → s < 600 →
      containerExists n d (fun _ => .response s body)
        = .error (exhaustedErrorOf n (some (httpErrorOf s body)))) ∧
    (∀ m, containerExists n d (fun _ => .netError m)
        = .error (exhaustedErrorOf n (some (.plainError m)))) := by
  refine ⟨?_, ?_, ?_, ?_, ?_⟩
  · intro s h2 h3
    rw [containerExists, request_const_2xx n d s body hn h2 h3]
  · rw [containerExists, request_const_4xx n d 404 body hn (by omega) (by omega)]
    rfl
  · intro s h4 h5 hne
    rw [containerExists, request_const_4xx n d s body hn h4 h5]
    simp only [JsError.statusOf, httpErrorOf]
    rw [if_neg (by simpa using hne)]
  · intro s h5 h6
    rw [containerExists, request_const_retryable n d (.response s body) hn ⟨by omega, by omega⟩]
    rfl
  · intro m
    rw [containerExists, request_const_retryable n d (.netError m) hn trivial]
    rfl

/-- C9 witness: concrete probes for 200, 404, 403, 503 and a network
failure. -/
theorem C9_containerExists_classifies_witness :
    containerExists 3 10 (fun _ => .response 200 "ok") = .ok true ∧
    containerExists 3 10 (fun _ => .response 404 "Not Found") = .ok false ∧
    containerExists 3 10 (fun _ => .response 403 "Forbidden")
      = .error (httpErrorOf 403 "Forbidden") ∧
    containerExists 3 10 (fun _ => .response 503 "Unavailable")
      = .error (exhaustedErrorOf 3 (some (httpErrorOf 503 "Unavailable"))) ∧
    containerExists 3 10 (fun _ => .netError "down")
      = .error (exhaustedErrorOf 3 (some (.plainError "down"))) :=
  ⟨(C9_containerExists_classifies 3 10 "ok" (by decide)).1 200 (by decide) (by decide),
   (C9_containerExists_classifies 3 10 "Not Found" (by decide)).2.1,
   (C9_containerExists_classifies 3 10 "Forbidden" (by decide)).2.2.1 403 (by decide) (by decide)
     (by decide),
   (C9_containerExists_classifies 3 10 "Unavailable" (by decide)).2.2.2.1 503 (by decide)
     (by decide),
   (C9_containerExists_classifies 3 10 "x" (by decide)).2.2.2.2 "down"⟩

/-! ## Batched insert helper (src/core/cloud-client.ts, CRUDOperations) -/

/-- `BatchOperationResult` (cloud-client.ts:692): totals of succeeded
and failed records, and one `{index, error}` entry per failed batch
call, where `index` is the starting row offset of the batch and
`error` the underlying error's message. -/
structure BatchOperationResult where
  succeeded : Nat
  failed : Nat
  errors : List (Nat × String)
deriving DecidableEq, Repr

/-- The `for (let i = 0; i < data.length; i += batchSize)` loop of
`batchInsert` (cloud-client.ts:422): slice `data.slice(i, i + batchSize)`,
await one insert call for the batch, add the batch length to `succeeded`
on resolution or to `failed` on rejection, recording `{index: i,
error: error.message}` for a rejection.  `outcome i` is the result of
the insert call issued at offset `i` (`none` resolves, `some e` rejects
with error `e`; everything the client throws is an `Error`, so the
source's `'Unknown error'` fallback for non-`Error` throws is dead
here).  The returned list collects the sizes of the issued write calls
in issue order.  `fuel` bounds the loop iterations so that concrete
runs reduce in the kernel; `data.length + 1` suffices for
`1 ≤ batchSize`. -/
def batchInsertGo (data : List JSVal) (batchSize : Nat) (outcome : Nat → Option JsError) :
    Nat → Nat → BatchOperationResult → List Nat → BatchOperationResult × List Nat
  | 0, _, result, calls => (result, calls)
  | fuel + 1, i, result, calls =>
    if i < data.length then
      let batch := (data.drop i).take batchSize
      match outcome i with
      | none =>
        batchInsertGo data batchSize outcome fuel (i + batchSize)
          { result with succeeded := result.succeeded + batch.length }
          (calls ++ [batch.length])
      | some e =>
        batchInsertGo data batchSize outcome fuel (i + batchSize)
          { result with failed := result.failed + batch.length,
                        errors := result.errors ++ [(i, e.messageOf)] }
          (calls ++ [batch.length])
    else (result, calls)

/-- `batchInsert` (cloud-client.ts:411): run the batching loop from
offset 0 with an empty result. -/
def batchInsert (data : List JSVal) (batchSize : Nat) (outcome : Nat → Option JsError) :
    BatchOperationResult × List Nat :=
  batchInsertGo data batchSize outcome (data.length + 1) 0 ⟨0, 0, []⟩ []

set_option maxRecDepth 4000 in
/-- C8: batch-inserting 250 rows with batch size 100 issues exactly the
three sequential write calls of 100, 100 and 50 rows; with every call
resolving the result is 250 succeeded / 0 failed with no error entry;
with exactly the second call (the batch at row offset 100) rejecting,
the result is 150 succeeded / 100 failed with exactly the one recorded
entry `(100, "Batch failed")`, and all three calls are still issued in
order. -/
theorem C8_batchInsert_scenario :
    (batchInsert (List.replicate 250 JSVal.vnull) 100 (fun _ => none)).2 = [100, 100, 50] ∧
    (batchInsert (List.replicate 250 JSVal.vnull) 100 (fun _ => none)).1.succeeded = 250 ∧
    (batchInsert (List.replicate 250 JSVal.vnull) 100 (fun _ => none)).1.failed = 0 ∧
    (batchInsert (List.replicate 250 JSVal.vnull) 100 (fun _ => none)).1.errors = [] ∧
    (batchInsert (List.replicate 250 JSVal.vnull) 100
        (fun i => if i == 100 then some (.plainError "Batch failed") else none)).2
      = [100, 100, 50] ∧
    (batchInsert (List.replicate 250 JSVal.vnull) 100
        (fun i => if i == 100 then some (.plainError "Batch failed") else none)).1.succeeded
      = 150 ∧
    (batchInsert (List.replicate 250 JSVal.vnull) 100
        (fun i => if i == 100 then some (.plainError "Batch failed") else none)).1.failed
      = 100 ∧
    (batchInsert (List.replicate 250 JSVal.vnull) 100
        (fun i => if i == 100 then some (.plainError "Batch failed") else none)).1.errors
      = [(100, "Batch failed")] :=
  ⟨rfl, rfl, rfl, rfl, rfl, rfl, rfl, rfl⟩
